import Mathlib

/-!
Verification of the boundary-membership map and guarded accessors of
`CDiscAdjFEABoundVariable` (src/SU2_CFD/include/variables/CDiscAdjFEABoundVariable.hpp).

The class stores two boundary-only dense matrices (`FlowTraction_Sens`,
`SourceTerm_DispAdjoint`) addressed by a compact local index, and a
`CVertexMap` that records per global point whether it is a boundary vertex
and, once built, its local index.  The accessor bodies are in the header;
the `CVertexMap` toolbox and the bodies of the constructor and of
`AllocateBoundaryVariables` live elsewhere in the repository, so those are
modelled from the specification.

Values of type `su2double` are modelled as rationals: the core performs no
arithmetic on them (pure store/load), so no floating-point behaviour is
involved.
-/

namespace SU2

/-- Modelled from the spec: the `MembershipIndex` (`CVertexMap<unsigned>` of
`Common/include/toolboxes/CVertexMap.hpp`, not present in src/).
`memberFlag` is the per-global-index boolean sequence (spec section 3); it is
created all-false at construction.  `localIndex`, when present, is the
compact-index map built at the freeze point: entry `i` is `some k` when the
point was a member at build time with local index `k`. `none` as a whole
means the map has not been built yet. -/
structure CVertexMap where
  memberFlag : List Bool
  localIndex : Option (List (Option Nat))
deriving DecidableEq

/-- Modelled from the spec: fresh map for a domain of `npoint` global indices,
all flags false, index map not yet built. -/
def CVertexMap.reset (npoint : Nat) : CVertexMap :=
  { memberFlag := List.replicate npoint false, localIndex := none }

/-- Modelled from the spec: `SetMember` records membership for one global
index; last write wins, no side effect beyond the flag. -/
def CVertexMap.SetIsVertex (vm : CVertexMap) (iPoint : Nat) (isVertex : Bool) : CVertexMap :=
  { vm with memberFlag := vm.memberFlag.set iPoint isVertex }

/-- Modelled from the spec: `IsMember` is a pure query, false by default and
for any index never marked. -/
def CVertexMap.GetIsVertex (vm : CVertexMap) (iPoint : Nat) : Bool :=
  vm.memberFlag.getD iPoint false

/-- Helper for the build scan: assigns sequential local indices to members in
ascending global-index order, starting from `k`. -/
def buildLocalIndexAux : List Bool → Nat → List (Option Nat)
  | [], _ => []
  | b :: fs, k => (if b then some k else none) :: buildLocalIndexAux fs (if b then k + 1 else k)

/-- Modelled from the spec: the index map built by scanning `memberFlag` once
in ascending global-index order, assigning sequential local indices
0, 1, 2, ... to members in that order. -/
def buildLocalIndex (fs : List Bool) : List (Option Nat) :=
  buildLocalIndexAux fs 0

/-- Modelled from the spec: `LocalIndexOf` — returns the compact member-local
index if the point is a member and the index map has been built; returns
absent otherwise (never fatal).  This is the lookup performed by
`CVertexMap::GetVertexIndex` in the guarded accessors. -/
def CVertexMap.GetVertexIndex (vm : CVertexMap) (iPoint : Nat) : Option Nat :=
  if vm.memberFlag.getD iPoint false then
    match vm.localIndex with
    | none => none
    | some li => li.getD iPoint none
  else none

/-- Entry read of a dense row-major matrix modelled as a list of rows. -/
def matGet (m : List (List ℚ)) (i j : Nat) : ℚ :=
  (m.getD i []).getD j 0

/-- Entry write of a dense matrix modelled as a list of rows (out-of-range
writes are no-ops of `List.set`; the guarded accessors only reach in-range
indices, see the safety claim). -/
def matSet (m : List (List ℚ)) (i j : Nat) (v : ℚ) : List (List ℚ) :=
  m.set i ((m.getD i []).set j v)

/-- The state of a `CDiscAdjFEABoundVariable` object: the two boundary-only
matrices, the vertex map, and the spatial dimensionality `nDim` (column count
of both matrices).  Base-class fields are out of scope. -/
structure CDiscAdjFEABoundVariable where
  nDim : Nat
  VertexMap : CVertexMap
  FlowTraction_Sens : List (List ℚ)
  SourceTerm_DispAdjoint : List (List ℚ)
deriving DecidableEq

namespace CDiscAdjFEABoundVariable

/-- Modelled from the spec: the constructor (body not in src/) sizes the
vertex map to `npoint` with all flags false and leaves the boundary-only
matrices unallocated (empty); base-class fields are out of scope. -/
def construct (npoint ndim : Nat) : CDiscAdjFEABoundVariable :=
  { nDim := ndim
    VertexMap := CVertexMap.reset npoint
    FlowTraction_Sens := []
    SourceTerm_DispAdjoint := [] }

/-- Modelled from the spec: `AllocateBoundaryVariables` (body not in src/)
builds the local-index map by a single ascending scan of the membership flags
and allocates each boundary-only matrix with M rows (M = number of members at
allocation time) and `nDim` columns, zero-initialized. -/
def AllocateBoundaryVariables (s : CDiscAdjFEABoundVariable) : CDiscAdjFEABoundVariable :=
  let fs := s.VertexMap.memberFlag
  let M := fs.count true
  { s with
    VertexMap := { memberFlag := fs, localIndex := some (buildLocalIndex fs) }
    FlowTraction_Sens := List.replicate M (List.replicate s.nDim 0)
    SourceTerm_DispAdjoint := List.replicate M (List.replicate s.nDim 0) }

/-- Source (header lines 90-93): guarded setter of the flow-traction
sensitivity.  `GetVertexIndex` replaces the global index by the local index
on success; on failure the call returns leaving the state unchanged. -/
def SetFlowTractionSensitivity (s : CDiscAdjFEABoundVariable)
    (iPoint iDim : Nat) (val : ℚ) : CDiscAdjFEABoundVariable :=
  match s.VertexMap.GetVertexIndex iPoint with
  | none => s
  | some k => { s with FlowTraction_Sens := matSet s.FlowTraction_Sens k iDim val }

/-- Source (header lines 100-103): guarded getter of the flow-traction
sensitivity; returns 0.0 when the vertex-map lookup fails. -/
def GetFlowTractionSensitivity (s : CDiscAdjFEABoundVariable)
    (iPoint iDim : Nat) : ℚ :=
  match s.VertexMap.GetVertexIndex iPoint with
  | none => 0
  | some k => matGet s.FlowTraction_Sens k iDim

/-- Source (header lines 110-113): guarded setter of the displacement-adjoint
source term. -/
def SetSourceTerm_DispAdjoint (s : CDiscAdjFEABoundVariable)
    (iPoint iDim : Nat) (val : ℚ) : CDiscAdjFEABoundVariable :=
  match s.VertexMap.GetVertexIndex iPoint with
  | none => s
  | some k => { s with SourceTerm_DispAdjoint := matSet s.SourceTerm_DispAdjoint k iDim val }

/-- Source (header lines 120-123): guarded getter of the displacement-adjoint
source term; returns 0.0 when the vertex-map lookup fails. -/
def GetSourceTerm_DispAdjoint (s : CDiscAdjFEABoundVariable)
    (iPoint iDim : Nat) : ℚ :=
  match s.VertexMap.GetVertexIndex iPoint with
  | none => 0
  | some k => matGet s.SourceTerm_DispAdjoint k iDim

/-- Source (header lines 128-130): membership query, forwarded to the vertex
map. -/
def Get_isVertex (s : CDiscAdjFEABoundVariable) (iPoint : Nat) : Bool :=
  s.VertexMap.GetIsVertex iPoint

/-- Source (header lines 135-137): membership marking, forwarded to the
vertex map. -/
def Set_isVertex (s : CDiscAdjFEABoundVariable) (iPoint : Nat) (isVertex : Bool) :
    CDiscAdjFEABoundVariable :=
  { s with VertexMap := s.VertexMap.SetIsVertex iPoint isVertex }

/-- Apply a sequence of membership-marking calls, in order. -/
def applyMarks (s : CDiscAdjFEABoundVariable) (ms : List (Nat × Bool)) :
    CDiscAdjFEABoundVariable :=
  ms.foldl (fun t p => t.Set_isVertex p.1 p.2) s

/-- The last boolean written for index `i` by a mark sequence, if any. -/
def lastMark : List (Nat × Bool) → Nat → Option Bool
  | [], _ => none
  | p :: rest, i =>
    match lastMark rest i with
    | some b => some b
    | none => if p.1 = i then some p.2 else none

/-- States reachable from the constructor through marking and guarded-setter
calls only, i.e. before `AllocateBoundaryVariables` has been called. -/
inductive ReachedBeforeAlloc : CDiscAdjFEABoundVariable → Prop
  | init (npoint ndim : Nat) : ReachedBeforeAlloc (construct npoint ndim)
  | mark {s} (i : Nat) (b : Bool) :
      ReachedBeforeAlloc s → ReachedBeforeAlloc (s.Set_isVertex i b)
  | setFlow {s} (i d : Nat) (v : ℚ) :
      ReachedBeforeAlloc s → ReachedBeforeAlloc (s.SetFlowTractionSensitivity i d v)
  | setSource {s} (i d : Nat) (v : ℚ) :
      ReachedBeforeAlloc s → ReachedBeforeAlloc (s.SetSourceTerm_DispAdjoint i d v)

/-- Shape invariant holding from `AllocateBoundaryVariables` on: the index map
is the one built from the current flags, and both matrices have M rows (M =
member count) of `nDim` columns each. -/
def Allocated (s : CDiscAdjFEABoundVariable) : Prop :=
  s.VertexMap.localIndex = some (buildLocalIndex s.VertexMap.memberFlag) ∧
  s.FlowTraction_Sens.length = s.VertexMap.memberFlag.count true ∧
  s.SourceTerm_DispAdjoint.length = s.VertexMap.memberFlag.count true ∧
  (∀ r, r < s.VertexMap.memberFlag.count true →
    (s.FlowTraction_Sens.getD r []).length = s.nDim) ∧
  (∀ r, r < s.VertexMap.memberFlag.count true →
    (s.SourceTerm_DispAdjoint.getD r []).length = s.nDim)

end CDiscAdjFEABoundVariable

theorem getD_set_self {α} (l : List α) (i : Nat) (v d : α) (h : i < l.length) :
    (l.set i v).getD i d = v := by
  simp [List.getD, List.getElem?_set, h]

theorem getD_set_ne {α} (l : List α) (i j : Nat) (v d : α) (h : i ≠ j) :
    (l.set i v).getD j d = l.getD j d := by
  simp [List.getD, List.getElem?_set, h]

theorem getD_replicate_false (n i : Nat) :
    (List.replicate n false).getD i false = false := by
  simp [List.getD, List.getElem?_replicate]
  split <;> rfl

theorem getD_true_lt_length (l : List Bool) (i : Nat) (h : l.getD i false = true) :
    i < l.length := by
  by_contra hc
  push_neg at hc
  rw [List.getD_eq_default] at h
  · exact Bool.false_ne_true h
  · exact hc

theorem buildLocalIndexAux_getD (fs : List Bool) (k i : Nat) :
    (buildLocalIndexAux fs k).getD i none =
      if fs.getD i false then some (k + (fs.take i).count true) else none := by
  induction fs generalizing k i with
  | nil => simp [buildLocalIndexAux, List.getD]
  | cons b t ih =>
    cases i with
    | zero => cases b <;> simp [buildLocalIndexAux]
    | succ n =>
      have h := ih (if b then k + 1 else k) n
      cases b <;>
        simp only [buildLocalIndexAux, if_true, if_false, List.getD_cons_succ,
          List.take_succ_cons, List.count_cons] at h ⊢ <;>
        (rw [h]; split <;> (simp; try omega))

/-- The compact index assigned to a member by the ascending scan, i.e. the
number of members with a strictly smaller global index, is below the total
member count. -/
theorem count_take_lt (fs : List Bool) (i : Nat) (h : fs.getD i false = true) :
    (fs.take i).count true < fs.count true := by
  induction fs generalizing i with
  | nil => simp [List.getD] at h
  | cons b t ih =>
    cases i with
    | zero =>
      simp only [List.getD_cons_zero] at h
      subst h
      simp [List.count_cons]
    | succ n =>
      have := ih n (by simpa using h)
      simp only [List.take_succ_cons, List.count_cons]
      cases b <;> simp <;> omega

/-- Compact indices are strictly increasing along members in ascending
global-index order. -/
theorem count_take_strictMono (fs : List Bool) (i j : Nat) (hij : i < j)
    (h : fs.getD i false = true) :
    (fs.take i).count true < (fs.take j).count true := by
  induction fs generalizing i j with
  | nil => simp [List.getD] at h
  | cons b t ih =>
    cases i with
    | zero =>
      simp only [List.getD_cons_zero] at h
      subst h
      obtain ⟨j', rfl⟩ : ∃ j', j = j' + 1 := ⟨j - 1, by omega⟩
      simp [List.count_cons]
    | succ n =>
      obtain ⟨j', rfl⟩ : ∃ j', j = j' + 1 := ⟨j - 1, by omega⟩
      have := ih n j' (by omega) (by simpa using h)
      simp only [List.take_succ_cons, List.count_cons]
      cases b <;> simp <;> omega

/-- Every compact index below the member count is hit by some member. -/
theorem count_take_surj (fs : List Bool) (k : Nat) (h : k < fs.count true) :
    ∃ i, fs.getD i false = true ∧ (fs.take i).count true = k := by
  induction fs generalizing k with
  | nil => simp at h
  | cons b t ih =>
    cases b with
    | false =>
      simp only [List.count_cons] at h
      obtain ⟨i, hi, hc⟩ := ih k (by simpa using h)
      exact ⟨i + 1, by simpa using hi, by simpa [List.count_cons] using hc⟩
    | true =>
      cases k with
      | zero => exact ⟨0, rfl, by simp⟩
      | succ k' =>
        have hk : k' < t.count true := by
          have := h
          simp [List.count_cons] at this
          omega
        obtain ⟨i, hi, hc⟩ := ih k' hk
        exact ⟨i + 1, by simpa using hi, by simp [List.count_cons, hc]⟩

open CDiscAdjFEABoundVariable

theorem getVertexIndex_of_built (vm : CVertexMap) (i : Nat)
    (h : vm.localIndex = some (buildLocalIndex vm.memberFlag)) :
    vm.GetVertexIndex i =
      if vm.memberFlag.getD i false then some ((vm.memberFlag.take i).count true)
      else none := by
  unfold CVertexMap.GetVertexIndex
  rw [h]
  split
  · rename_i hmem
    show (buildLocalIndex vm.memberFlag).getD i none = _
    rw [buildLocalIndex, buildLocalIndexAux_getD, if_pos hmem, Nat.zero_add]
  · rfl

theorem getVertexIndex_none_of_unbuilt (vm : CVertexMap) (i : Nat)
    (h : vm.localIndex = none) : vm.GetVertexIndex i = none := by
  unfold CVertexMap.GetVertexIndex
  rw [h]
  split <;> rfl

theorem allocated_allocate (s : CDiscAdjFEABoundVariable) :
    Allocated (AllocateBoundaryVariables s) := by
  refine ⟨rfl, by simp [AllocateBoundaryVariables], by simp [AllocateBoundaryVariables],
    ?_, ?_⟩ <;>
    (intro r hr
     simp only [AllocateBoundaryVariables] at hr ⊢
     rw [List.getD_eq_getElem?_getD, List.getElem?_replicate, if_pos hr]
     simp)

theorem matGet_matSet_self (m : List (List ℚ)) (i j : Nat) (v : ℚ)
    (hi : i < m.length) (hj : j < (m.getD i []).length) :
    matGet (matSet m i j v) i j = v := by
  unfold matGet matSet
  rw [getD_set_self _ _ _ _ (by simpa using hi), getD_set_self _ _ _ _ hj]

theorem setFlow_vertexMap (s : CDiscAdjFEABoundVariable) (i d : Nat) (v : ℚ) :
    (s.SetFlowTractionSensitivity i d v).VertexMap = s.VertexMap := by
  unfold SetFlowTractionSensitivity
  cases s.VertexMap.GetVertexIndex i <;> rfl

theorem setSource_vertexMap (s : CDiscAdjFEABoundVariable) (i d : Nat) (v : ℚ) :
    (s.SetSourceTerm_DispAdjoint i d v).VertexMap = s.VertexMap := by
  unfold SetSourceTerm_DispAdjoint
  cases s.VertexMap.GetVertexIndex i <;> rfl

theorem reached_localIndex_none (s : CDiscAdjFEABoundVariable)
    (h : ReachedBeforeAlloc s) : s.VertexMap.localIndex = none := by
  induction h with
  | init npoint ndim => rfl
  | mark i b _ ih =>
    simpa [Set_isVertex, CVertexMap.SetIsVertex] using ih
  | setFlow i d v _ ih =>
    rename_i t _
    rw [setFlow_vertexMap t i d v]
    exact ih
  | setSource i d v _ ih =>
    rename_i t _
    rw [setSource_vertexMap t i d v]
    exact ih

theorem get_isVertex_set_self (s : CDiscAdjFEABoundVariable) (i : Nat) (b : Bool)
    (hi : i < s.VertexMap.memberFlag.length) :
    (s.Set_isVertex i b).Get_isVertex i = b := by
  simp only [Set_isVertex, Get_isVertex, CVertexMap.SetIsVertex, CVertexMap.GetIsVertex]
  exact getD_set_self _ _ _ _ hi

theorem get_isVertex_set_ne (s : CDiscAdjFEABoundVariable) (j : Nat) (b : Bool) (i : Nat)
    (h : j ≠ i) :
    (s.Set_isVertex j b).Get_isVertex i = s.Get_isVertex i := by
  simp only [Set_isVertex, Get_isVertex, CVertexMap.SetIsVertex, CVertexMap.GetIsVertex]
  exact getD_set_ne _ _ _ _ _ h

theorem applyMarks_get_other (s : CDiscAdjFEABoundVariable) (ms : List (Nat × Bool))
    (i : Nat) (h : ∀ p ∈ ms, p.1 ≠ i) :
    (applyMarks s ms).Get_isVertex i = s.Get_isVertex i := by
  induction ms generalizing s with
  | nil => rfl
  | cons p rest ih =>
    have h1 := ih (s.Set_isVertex p.1 p.2) (fun q hq => h q (List.mem_cons_of_mem p hq))
    have h2 := get_isVertex_set_ne s p.1 p.2 i (h p (List.mem_cons_self p rest))
    exact h1.trans h2

theorem applyMarks_lastMark (s : CDiscAdjFEABoundVariable) (ms : List (Nat × Bool))
    (i : Nat) (hi : i < s.VertexMap.memberFlag.length) :
    (applyMarks s ms).Get_isVertex i =
      (match lastMark ms i with
       | some b => b
       | none => s.Get_isVertex i) := by
  induction ms generalizing s with
  | nil => rfl
  | cons p rest ih =>
    have hlen : (s.Set_isVertex p.1 p.2).VertexMap.memberFlag.length
        = s.VertexMap.memberFlag.length := by
      simp [Set_isVertex, CVertexMap.SetIsVertex]
    have h1 := ih (s.Set_isVertex p.1 p.2) (by rw [hlen]; exact hi)
    rw [show applyMarks s (p :: rest) = applyMarks (s.Set_isVertex p.1 p.2) rest from rfl, h1]
    rw [lastMark]
    cases hr : lastMark rest i with
    | some b => rfl
    | none =>
      simp only [hr]
      by_cases hp : p.1 = i
      · subst hp
        rw [if_pos rfl, get_isVertex_set_self s p.1 p.2 hi]
      · rw [if_neg hp, get_isVertex_set_ne s p.1 p.2 i hp]

/-- The spec's running scenario: a domain of 10 points in 2 dimensions with
points 2, 5 and 7 marked as boundary members, before allocation. -/
def ex10pre : CDiscAdjFEABoundVariable :=
  applyMarks (construct 10 2) [(2, true), (5, true), (7, true)]

/-- The scenario state after `AllocateBoundaryVariables`. -/
def ex10 : CDiscAdjFEABoundVariable :=
  AllocateBoundaryVariables ex10pre

/-- Claim C1: for every boundary-member point i (Get_isVertex true in an
allocated state) and every valid spatial component d, SetFlowTractionSensitivity
followed immediately by GetFlowTractionSensitivity returns the written value,
and likewise for SetSourceTerm_DispAdjoint / GetSourceTerm_DispAdjoint. -/
theorem C1_set_get_roundtrip (s : CDiscAdjFEABoundVariable) (i d : Nat) (v : ℚ)
    (hA : Allocated s) (hm : s.Get_isVertex i = true) (hd : d < s.nDim) :
    (s.SetFlowTractionSensitivity i d v).GetFlowTractionSensitivity i d = v ∧
    (s.SetSourceTerm_DispAdjoint i d v).GetSourceTerm_DispAdjoint i d = v := by
  obtain ⟨hli, hlF, hlS, hrF, hrS⟩ := hA
  simp only [Get_isVertex, CVertexMap.GetIsVertex] at hm
  have hvi := getVertexIndex_of_built s.VertexMap i hli
  rw [if_pos hm] at hvi
  have hk := count_take_lt s.VertexMap.memberFlag i hm
  constructor
  · simp only [SetFlowTractionSensitivity, GetFlowTractionSensitivity, hvi]
    exact matGet_matSet_self _ _ _ _ (by rw [hlF]; exact hk) (by rw [hrF _ hk]; exact hd)
  · simp only [SetSourceTerm_DispAdjoint, GetSourceTerm_DispAdjoint, hvi]
    exact matGet_matSet_self _ _ _ _ (by rw [hlS]; exact hk) (by rw [hrS _ hk]; exact hd)

/-- Witness for C1 on the spec scenario: write then read on member point 5,
component 0, and on member point 7, component 1. -/
theorem C1_set_get_roundtrip_witness :
    (ex10.SetFlowTractionSensitivity 5 0 (314/100)).GetFlowTractionSensitivity 5 0
      = 314/100 ∧
    (ex10.SetSourceTerm_DispAdjoint 7 1 (99/10)).GetSourceTerm_DispAdjoint 7 1
      = 99/10 :=
  ⟨(C1_set_get_roundtrip ex10 5 0 (314/100) (allocated_allocate ex10pre)
      (by decide) (by decide)).1,
   (C1_set_get_roundtrip ex10 7 1 (99/10) (allocated_allocate ex10pre)
      (by decide) (by decide)).2⟩

/-- Claim C2: for every non-member point (Get_isVertex false), both guarded
getters return the neutral value 0.0 without signaling an error, in any state
(hence regardless of prior setter calls). -/
theorem C2_nonmember_get_zero (s : CDiscAdjFEABoundVariable) (i d : Nat)
    (hm : s.Get_isVertex i = false) :
    s.GetFlowTractionSensitivity i d = 0 ∧ s.GetSourceTerm_DispAdjoint i d = 0 := by
  simp only [Get_isVertex, CVertexMap.GetIsVertex] at hm
  have hvi : s.VertexMap.GetVertexIndex i = none := by
    unfold CVertexMap.GetVertexIndex
    rw [hm]
    rfl
  exact ⟨by simp [GetFlowTractionSensitivity, hvi],
    by simp [GetSourceTerm_DispAdjoint, hvi]⟩

/-- Witness for C2: point 3 is not a member of the scenario; after a prior
setter call on it, both getters still return 0. -/
theorem C2_nonmember_get_zero_witness :
    (ex10.SetFlowTractionSensitivity 3 0 (99/10)).Get_isVertex 3 = false ∧
    (ex10.SetFlowTractionSensitivity 3 0 (99/10)).GetFlowTractionSensitivity 3 0 = 0 ∧
    (ex10.SetFlowTractionSensitivity 3 0 (99/10)).GetSourceTerm_DispAdjoint 3 1 = 0 :=
  ⟨by decide,
   (C2_nonmember_get_zero (ex10.SetFlowTractionSensitivity 3 0 (99/10)) 3 0
      (by decide)).1,
   (C2_nonmember_get_zero (ex10.SetFlowTractionSensitivity 3 0 (99/10)) 3 1
      (by decide)).2⟩

/-- Claim C3: for every non-member point (Get_isVertex false), both guarded
setters are silent no-ops: the whole state, in particular every row and
column of both stored matrices, is unchanged. -/
theorem C3_nonmember_set_noop (s : CDiscAdjFEABoundVariable) (i d : Nat) (v : ℚ)
    (hm : s.Get_isVertex i = false) :
    s.SetFlowTractionSensitivity i d v = s ∧ s.SetSourceTerm_DispAdjoint i d v = s := by
  simp only [Get_isVertex, CVertexMap.GetIsVertex] at hm
  have hvi : s.VertexMap.GetVertexIndex i = none := by
    unfold CVertexMap.GetVertexIndex
    rw [hm]
    rfl
  exact ⟨by simp [SetFlowTractionSensitivity, hvi],
    by simp [SetSourceTerm_DispAdjoint, hvi]⟩

/-- Witness for C3: writing to the non-member point 3 of the scenario leaves
the state unchanged. -/
theorem C3_nonmember_set_noop_witness :
    ex10.SetFlowTractionSensitivity 3 0 (99/10) = ex10 ∧
    ex10.SetSourceTerm_DispAdjoint 3 1 (314/100) = ex10 :=
  ⟨(C3_nonmember_set_noop ex10 3 0 (99/10) (by decide)).1,
   (C3_nonmember_set_noop ex10 3 1 (314/100) (by decide)).2⟩

/-- Claim C4: after AllocateBoundaryVariables, the local-index map is a total
bijection from the member set onto the interval below M, where M is the
member count at allocation time: every member has a local index below M,
every point with a local index is a member, the assignment is injective, and
every value below M is hit by a member. -/
theorem C4_localIndex_bijection (s : CDiscAdjFEABoundVariable) :
    (∀ i, (AllocateBoundaryVariables s).Get_isVertex i = true →
      ∃ k, (AllocateBoundaryVariables s).VertexMap.GetVertexIndex i = some k ∧
        k < s.VertexMap.memberFlag.count true) ∧
    (∀ i k, (AllocateBoundaryVariables s).VertexMap.GetVertexIndex i = some k →
      (AllocateBoundaryVariables s).Get_isVertex i = true ∧
      k < s.VertexMap.memberFlag.count true) ∧
    (∀ i j ki kj, (AllocateBoundaryVariables s).VertexMap.GetVertexIndex i = some ki →
      (AllocateBoundaryVariables s).VertexMap.GetVertexIndex j = some kj →
      ki = kj → i = j) ∧
    (∀ k, k < s.VertexMap.memberFlag.count true →
      ∃ i, (AllocateBoundaryVariables s).Get_isVertex i = true ∧
        (AllocateBoundaryVariables s).VertexMap.GetVertexIndex i = some k) := by
  have hvx : ∀ i, (AllocateBoundaryVariables s).VertexMap.GetVertexIndex i =
      if s.VertexMap.memberFlag.getD i false then
        some ((s.VertexMap.memberFlag.take i).count true)
      else none := by
    intro i
    have h := getVertexIndex_of_built (AllocateBoundaryVariables s).VertexMap i
      (allocated_allocate s).1
    simpa [AllocateBoundaryVariables] using h
  have hgm : ∀ i, (AllocateBoundaryVariables s).Get_isVertex i
      = s.VertexMap.memberFlag.getD i false := fun _ => rfl
  refine ⟨?_, ?_, ?_, ?_⟩
  · intro i hi
    rw [hgm] at hi
    exact ⟨_, by rw [hvx i, if_pos hi], count_take_lt _ _ hi⟩
  · intro i k hk
    rw [hvx i] at hk
    split at hk
    · rename_i hmi
      injection hk with h1
      subst h1
      exact ⟨(hgm i).trans hmi, count_take_lt _ _ hmi⟩
    · exact absurd hk (by simp)
  · intro i j ki kj hki hkj hkeq
    rw [hvx i] at hki
    rw [hvx j] at hkj
    split at hki
    case isFalse => exact absurd hki (by simp)
    case isTrue hmi =>
      split at hkj
      case isFalse => exact absurd hkj (by simp)
      case isTrue hmj =>
        injection hki with h1
        injection hkj with h2
        subst h1
        subst h2
        rcases Nat.lt_trichotomy i j with hij | hij | hij
        · exact absurd hkeq (Nat.ne_of_lt (count_take_strictMono _ i j hij hmi))
        · exact hij
        · exact absurd hkeq.symm (Nat.ne_of_lt (count_take_strictMono _ j i hij hmj))
  · intro k hk
    obtain ⟨i, hi, hc⟩ := count_take_surj s.VertexMap.memberFlag k hk
    exact ⟨i, (hgm i).trans hi, by rw [hvx i, if_pos hi, hc]⟩

/-- Witness for C4 on the spec scenario: member 5 receives a local index
below M = 3, and local index 2 is hit by some member. -/
theorem C4_localIndex_bijection_witness :
    (∃ k, ex10.VertexMap.GetVertexIndex 5 = some k ∧
      k < ex10pre.VertexMap.memberFlag.count true) ∧
    (∃ i, ex10.Get_isVertex i = true ∧ ex10.VertexMap.GetVertexIndex i = some 2) :=
  ⟨(C4_localIndex_bijection ex10pre).1 5 (by decide),
   (C4_localIndex_bijection ex10pre).2.2.2 2 (by decide)⟩

/-- Claim C5: AllocateBoundaryVariables assigns local indices by a single
ascending scan of the membership flags — a member's local index is the number
of members at strictly smaller global indices, so members get 0, 1, 2, ... in
ascending order — and allocates both attribute matrices with M rows of nDim
columns, zero-initialized. -/
theorem C5_alloc_ascending_scan (s : CDiscAdjFEABoundVariable) :
    (∀ i, s.VertexMap.memberFlag.getD i false = true →
      (AllocateBoundaryVariables s).VertexMap.GetVertexIndex i =
        some ((s.VertexMap.memberFlag.take i).count true)) ∧
    (AllocateBoundaryVariables s).FlowTraction_Sens =
      List.replicate (s.VertexMap.memberFlag.count true) (List.replicate s.nDim 0) ∧
    (AllocateBoundaryVariables s).SourceTerm_DispAdjoint =
      List.replicate (s.VertexMap.memberFlag.count true) (List.replicate s.nDim 0) := by
  refine ⟨?_, rfl, rfl⟩
  intro i hi
  have h := getVertexIndex_of_built (AllocateBoundaryVariables s).VertexMap i
    (allocated_allocate s).1
  have hi' : (AllocateBoundaryVariables s).VertexMap.memberFlag.getD i false = true := hi
  rw [h, if_pos hi']
  rfl

/-- Witness for C5 on the spec scenario (N = 10, members 2, 5, 7): the three
members get local indices 0, 1, 2 in ascending order, and the matrices are
allocated with 3 zero rows of 2 columns. -/
theorem C5_alloc_ascending_scan_witness :
    ex10.VertexMap.GetVertexIndex 2 = some 0 ∧
    ex10.VertexMap.GetVertexIndex 5 = some 1 ∧
    ex10.VertexMap.GetVertexIndex 7 = some 2 ∧
    ex10.FlowTraction_Sens = List.replicate 3 (List.replicate 2 0) ∧
    ex10.SourceTerm_DispAdjoint = List.replicate 3 (List.replicate 2 0) :=
  ⟨((C5_alloc_ascending_scan ex10pre).1 2 (by decide)).trans (by decide),
   ((C5_alloc_ascending_scan ex10pre).1 5 (by decide)).trans (by decide),
   ((C5_alloc_ascending_scan ex10pre).1 7 (by decide)).trans (by decide),
   ((C5_alloc_ascending_scan ex10pre).2.1).trans (by decide),
   ((C5_alloc_ascending_scan ex10pre).2.2).trans (by decide)⟩

/-- Claim C6: in every state reached before AllocateBoundaryVariables has been
called — including states where points were already marked as members via
Set_isVertex — both guarded getters return 0 rather than faulting and both
guarded setters are no-ops, because the local-index map is still absent. -/
theorem C6_pre_alloc_guard (s : CDiscAdjFEABoundVariable) (h : ReachedBeforeAlloc s)
    (i d : Nat) (v : ℚ) :
    s.GetFlowTractionSensitivity i d = 0 ∧ s.GetSourceTerm_DispAdjoint i d = 0 ∧
    s.SetFlowTractionSensitivity i d v = s ∧ s.SetSourceTerm_DispAdjoint i d v = s := by
  have hvi := getVertexIndex_none_of_unbuilt s.VertexMap i (reached_localIndex_none s h)
  exact ⟨by simp [GetFlowTractionSensitivity, hvi],
    by simp [GetSourceTerm_DispAdjoint, hvi],
    by simp [SetFlowTractionSensitivity, hvi],
    by simp [SetSourceTerm_DispAdjoint, hvi]⟩

/-- Witness for C6: point 3 of a fresh 5-point domain is marked as a member
but allocation has not run; the getter still returns 0 and the setter is a
no-op. -/
theorem C6_pre_alloc_guard_witness :
    ((construct 5 2).Set_isVertex 3 true).Get_isVertex 3 = true ∧
    ((construct 5 2).Set_isVertex 3 true).GetFlowTractionSensitivity 3 0 = 0 ∧
    ((construct 5 2).Set_isVertex 3 true).SetSourceTerm_DispAdjoint 3 1 (99/10)
      = (construct 5 2).Set_isVertex 3 true :=
  ⟨by decide,
   (C6_pre_alloc_guard _ (ReachedBeforeAlloc.mark 3 true
      (ReachedBeforeAlloc.init 5 2)) 3 0 (99/10)).1,
   (C6_pre_alloc_guard _ (ReachedBeforeAlloc.mark 3 true
      (ReachedBeforeAlloc.init 5 2)) 3 1 (99/10)).2.2.2⟩

/-- Claim C7: any global index never targeted by a Set_isVertex call reports
Get_isVertex false: membership defaults to false at construction and the
query never faults, whatever marking happened on other indices. -/
theorem C7_default_not_member (npoint ndim i : Nat) (ms : List (Nat × Bool))
    (h : ∀ p ∈ ms, p.1 ≠ i) :
    (applyMarks (construct npoint ndim) ms).Get_isVertex i = false := by
  rw [applyMarks_get_other _ _ _ h]
  exact getD_replicate_false npoint i

/-- Witness for C7: point 3 was never marked in the scenario marking
sequence, so it is not a member. -/
theorem C7_default_not_member_witness :
    (applyMarks (construct 10 2) [(2, true), (5, true), (7, true)]).Get_isVertex 3
      = false :=
  C7_default_not_member 10 2 3 [(2, true), (5, true), (7, true)] (by decide)

/-- Claim C8: for an in-range index, after any sequence of Set_isVertex calls
Get_isVertex returns the boolean of the last call targeting that index (or
the prior value when none targets it), and a Set_isVertex call on a different
index never changes it. -/
theorem C8_last_write_wins (s : CDiscAdjFEABoundVariable) (ms : List (Nat × Bool))
    (i : Nat) (hi : i < s.VertexMap.memberFlag.length) :
    ((applyMarks s ms).Get_isVertex i =
      (match lastMark ms i with
       | some b => b
       | none => s.Get_isVertex i)) ∧
    (∀ j b, j ≠ i → (s.Set_isVertex j b).Get_isVertex i = s.Get_isVertex i) :=
  ⟨applyMarks_lastMark s ms i hi, fun j b hj => get_isVertex_set_ne s j b i hj⟩

/-- Witness for C8: marking point 4 true then false leaves it a non-member
(last write wins), while marking it once leaves it a member; writes to
point 6 in between do not interfere. -/
theorem C8_last_write_wins_witness :
    (applyMarks (construct 10 2) [(4, true), (4, false), (6, true)]).Get_isVertex 4
      = false ∧
    (applyMarks (construct 10 2) [(4, true), (6, true)]).Get_isVertex 4 = true :=
  ⟨((C8_last_write_wins (construct 10 2) [(4, true), (4, false), (6, true)] 4
      (by decide)).1).trans (by decide),
   ((C8_last_write_wins (construct 10 2) [(4, true), (6, true)] 4
      (by decide)).1).trans (by decide)⟩

/-- Claim C9: in an allocated state the guard makes out-of-bounds matrix
access unreachable — whenever the vertex-map lookup succeeds, the local index
used as row index is below the row count of both M-row matrices, and whenever
it fails neither matrix is touched (setters leave the state unchanged,
getters return 0). -/
theorem C9_guard_in_bounds (s : CDiscAdjFEABoundVariable) (hA : Allocated s) :
    (∀ i k, s.VertexMap.GetVertexIndex i = some k →
      s.Get_isVertex i = true ∧
      k < s.FlowTraction_Sens.length ∧
      k < s.SourceTerm_DispAdjoint.length) ∧
    (∀ i d v, s.VertexMap.GetVertexIndex i = none →
      s.SetFlowTractionSensitivity i d v = s ∧
      s.GetFlowTractionSensitivity i d = 0 ∧
      s.SetSourceTerm_DispAdjoint i d v = s ∧
      s.GetSourceTerm_DispAdjoint i d = 0) := by
  obtain ⟨hli, hlF, hlS, _, _⟩ := hA
  constructor
  · intro i k hk
    rw [getVertexIndex_of_built s.VertexMap i hli] at hk
    split at hk
    · rename_i hmi
      injection hk with h1
      subst h1
      exact ⟨hmi, by rw [hlF]; exact count_take_lt _ _ hmi,
        by rw [hlS]; exact count_take_lt _ _ hmi⟩
    · exact absurd hk (by simp)
  · intro i d v hvi
    exact ⟨by simp [SetFlowTractionSensitivity, hvi],
      by simp [GetFlowTractionSensitivity, hvi],
      by simp [SetSourceTerm_DispAdjoint, hvi],
      by simp [GetSourceTerm_DispAdjoint, hvi]⟩

/-- Witness for C9 on the spec scenario: member 7 carries local index 2,
which is below both row counts; the lookup fails on non-member 3 and the
accessors leave everything unchanged there. -/
theorem C9_guard_in_bounds_witness :
    (ex10.Get_isVertex 7 = true ∧
      2 < ex10.FlowTraction_Sens.length ∧
      2 < ex10.SourceTerm_DispAdjoint.length) ∧
    (ex10.SetFlowTractionSensitivity 3 0 (99/10) = ex10 ∧
      ex10.GetFlowTractionSensitivity 3 0 = 0 ∧
      ex10.SetSourceTerm_DispAdjoint 3 0 (99/10) = ex10 ∧
      ex10.GetSourceTerm_DispAdjoint 3 0 = 0) :=
  ⟨(C9_guard_in_bounds ex10 (allocated_allocate ex10pre)).1 7 2 (by decide),
   (C9_guard_in_bounds ex10 (allocated_allocate ex10pre)).2 3 0 (99/10) (by decide)⟩

/-- Claim C10: the two boundary-only attributes are independent — each setter
leaves the other attribute's stored matrix and every value observable through
the other getter unchanged, and neither setter changes any membership flag. -/
theorem C10_attribute_independence (s : CDiscAdjFEABoundVariable) (i d : Nat) (v : ℚ) :
    (s.SetFlowTractionSensitivity i d v).SourceTerm_DispAdjoint
      = s.SourceTerm_DispAdjoint ∧
    (s.SetSourceTerm_DispAdjoint i d v).FlowTraction_Sens = s.FlowTraction_Sens ∧
    (∀ j e, (s.SetFlowTractionSensitivity i d v).GetSourceTerm_DispAdjoint j e
      = s.GetSourceTerm_DispAdjoint j e) ∧
    (∀ j e, (s.SetSourceTerm_DispAdjoint i d v).GetFlowTractionSensitivity j e
      = s.GetFlowTractionSensitivity j e) ∧
    (∀ j, (s.SetFlowTractionSensitivity i d v).Get_isVertex j = s.Get_isVertex j) ∧
    (∀ j, (s.SetSourceTerm_DispAdjoint i d v).Get_isVertex j = s.Get_isVertex j) := by
  cases hvi : s.VertexMap.GetVertexIndex i <;>
    simp [SetFlowTractionSensitivity, SetSourceTerm_DispAdjoint,
      GetFlowTractionSensitivity, GetSourceTerm_DispAdjoint, Get_isVertex, hvi]

end SU2
